import Mathlib

/-!
Shallow embedding of the csmap package (src/csmap.go): a sharded hashmap
CSMap[K comparable, V any] with operations NewCSMap, Set, Get, Delete,
getShard and hash, plus theorems checking the specification claims.

Go specifics reflected here:
  - A Go map with comparable key type K is embedded as a function
    K to Option V; Go map assignment, lookup and delete become pointwise
    update and application.
  - The hash method reads the first machine word of the key argument
    through an unsafe pointer cast.  That word is determined by the key
    VALUE only for word-sized value types (int, uint64, ...); for types
    such as string the first word is the data pointer of the backing
    array, so two values that are equal can carry different first words.
    A key as the generic code receives it is therefore embedded as the
    pair of its logical value and that first word (structure GoKey).
  - Go runtime panics (modulo by zero when the shard count is 0,
    make with a negative length, slice index out of range) are embedded
    as Option results: none is a panic, some is normal completion.
  - The per-shard sync.RWMutex has no sequential content; the embedding
    covers the sequential semantics of the operations.
-/

/-- The machine word size of the 64-bit platform the package targets:
uintptr values lie below this bound. -/
def wordSize : Nat := 2 ^ 64

/-- A Go key of a comparable type K as the generic csmap code receives it:
its logical value (the equality the shard map uses) together with the
first machine word of its in-memory representation, which is what the
expression reading the key through an unsafe uintptr cast in hash
(src/csmap.go line 69) observes.  For a word-sized value type such as int
the first word equals the value; for a type such as string it is the
address of the backing array, so equal values may carry different first
words. -/
structure GoKey (K : Type) where
  value : K
  firstWord : Nat

/-- Shard (src/csmap.go lines 73-76): one partition of the map.  The Go
map field m is embedded as a function to Option; the sync.RWMutex field
has no sequential content and is omitted. -/
structure Shard (K V : Type) where
  m : K → Option V

/-- CSMap (src/csmap.go lines 16-19): the slice of shard pointers and the
stored shard count (field length). -/
structure CSMap (K V : Type) where
  shards : List (Shard K V)
  length : Nat

/-- NewCSMap (src/csmap.go lines 22-33).  The Go argument is an int; a
negative argument makes the slice allocation panic (none), any other
argument yields a CSMap whose shards slice holds that many independent
empty shard maps and whose length field stores the argument.  There is no
validation of the argument beyond the allocation itself. -/
def NewCSMap (K V : Type) (length : Int) : Option (CSMap K V) :=
  if length < 0 then none
  else some { shards := List.replicate length.toNat { m := fun _ => none }
              length := length.toNat }

/-- hash (src/csmap.go lines 67-70): the first machine word of the key,
reduced modulo the length field.  When length is 0 the Go modulo panics
(none). -/
def CSMap.hash {K V : Type} (c : CSMap K V) (key : GoKey K) : Option Nat :=
  if c.length = 0 then none
  else some (key.firstWord % c.length)

/-- getShard (src/csmap.go lines 62-64): index the shards slice at the
hash of the key.  An out-of-range index would panic (none). -/
def CSMap.getShard {K V : Type} (c : CSMap K V) (key : GoKey K) :
    Option (Shard K V) :=
  (c.hash key).bind fun i => c.shards[i]?

/-- Set (src/csmap.go lines 36-41): select the shard of the key, then
assign the value to the key in that shard map.  The Go code mutates the
shard through its pointer; here the shards list is rebuilt with the one
updated shard at the same index. -/
def CSMap.Set {K V : Type} [DecidableEq K] (c : CSMap K V) (key : GoKey K)
    (value : V) : Option (CSMap K V) :=
  (c.hash key).bind fun i =>
    (c.shards[i]?).map fun s =>
      { c with shards :=
          c.shards.set i { m := fun x => if x = key.value then some value else s.m x } }

/-- Get (src/csmap.go lines 45-51): select the shard of the key, look the
key up in its map, return the value and the presence flag.  Go returns
the zero value of V when the key is absent; the Inhabited default plays
that role. -/
def CSMap.Get {K V : Type} [DecidableEq K] [Inhabited V] (c : CSMap K V)
    (key : GoKey K) : Option (V × Bool) :=
  (c.getShard key).map fun s =>
    match s.m key.value with
    | some v => (v, true)
    | none => (default, false)

/-- Delete (src/csmap.go lines 54-59): select the shard of the key,
remove the key from that shard map. -/
def CSMap.Delete {K V : Type} [DecidableEq K] (c : CSMap K V) (key : GoKey K) :
    Option (CSMap K V) :=
  (c.hash key).bind fun i =>
    (c.shards[i]?).map fun s =>
      { c with shards :=
          c.shards.set i { m := fun x => if x = key.value then none else s.m x } }

/-- The three public operations, for stating state-transformer facts:
running an operation yields the post state and, for Get, the returned
pair.  Set and Delete return nothing in Go. -/
inductive Op (K V : Type) where
  | set (key : GoKey K) (value : V)
  | get (key : GoKey K)
  | del (key : GoKey K)

/-- Run one public operation on a CSMap: the Go method call, with the
post state made explicit.  Get does not mutate the map, so its post
state is the input state. -/
def CSMap.run {K V : Type} [DecidableEq K] [Inhabited V] (c : CSMap K V) :
    Op K V → Option (CSMap K V × Option (V × Bool))
  | .set key value => (c.Set key value).map (fun c2 => (c2, none))
  | .get key => (c.Get key).map (fun r => (c, some r))
  | .del key => (c.Delete key).map (fun c2 => (c2, none))

/-- Decomposition of a successful Set: the hash yields an index holding a
shard, and the post state rewrites exactly that slot. -/
theorem CSMap.Set_eq_some {K V : Type} [DecidableEq K] {c c' : CSMap K V}
    {k : GoKey K} {v : V} (h : c.Set k v = some c') :
    ∃ i s, c.hash k = some i ∧ c.shards[i]? = some s ∧
      c' = { c with shards :=
        c.shards.set i { m := fun x => if x = k.value then some v else s.m x } } := by
  simp only [CSMap.Set, Option.bind_eq_some, Option.map_eq_some'] at h
  obtain ⟨i, hi, s, hs, hc⟩ := h
  exact ⟨i, s, hi, hs, hc.symm⟩

/-- Decomposition of a successful Delete, in the same shape. -/
theorem CSMap.Delete_eq_some {K V : Type} [DecidableEq K] {c c' : CSMap K V}
    {k : GoKey K} (h : c.Delete k = some c') :
    ∃ i s, c.hash k = some i ∧ c.shards[i]? = some s ∧
      c' = { c with shards :=
        c.shards.set i { m := fun x => if x = k.value then none else s.m x } } := by
  simp only [CSMap.Delete, Option.bind_eq_some, Option.map_eq_some'] at h
  obtain ⟨i, hi, s, hs, hc⟩ := h
  exact ⟨i, s, hi, hs, hc.symm⟩

/-- Replacing the shards list does not change the hash (it reads only the
length field). -/
theorem CSMap.hash_with_shards {K V : Type} (c : CSMap K V) (l : List (Shard K V))
    (k : GoKey K) : ({ c with shards := l } : CSMap K V).hash k = c.hash k := rfl

/-- After a successful Set of key k to v, Get of the same key returns
(v, true). -/
theorem CSMap.get_after_set {K V : Type} [DecidableEq K] [Inhabited V]
    (c c' : CSMap K V) (k : GoKey K) (v : V) (h : c.Set k v = some c') :
    c'.Get k = some (v, true) := by
  obtain ⟨i, s, hi, hs, rfl⟩ := CSMap.Set_eq_some h
  have hlt : i < c.shards.length := (List.getElem?_eq_some_iff.mp hs).1
  simp [CSMap.Get, CSMap.getShard, CSMap.hash_with_shards, hi,
    List.getElem?_set_self (by simpa using hlt)]

/-- After a successful Delete of key k, Get of the same key reports the key
absent (and returns the zero value of V). -/
theorem CSMap.get_after_delete {K V : Type} [DecidableEq K] [Inhabited V]
    (c c' : CSMap K V) (k : GoKey K) (h : c.Delete k = some c') :
    c'.Get k = some (default, false) := by
  obtain ⟨i, s, hi, hs, rfl⟩ := CSMap.Delete_eq_some h
  have hlt : i < c.shards.length := (List.getElem?_eq_some_iff.mp hs).1
  simp [CSMap.Get, CSMap.getShard, CSMap.hash_with_shards, hi,
    List.getElem?_set_self (by simpa using hlt)]

/-- A successful Set leaves the length field and the mapping of every shard
other than the hashed one untouched. -/
theorem CSMap.set_frame {K V : Type} [DecidableEq K] {c c' : CSMap K V}
    {k : GoKey K} {v : V} (h : c.Set k v = some c') :
    c'.length = c.length ∧
    ∀ j : Nat, c.hash k ≠ some j → c'.shards[j]? = c.shards[j]? := by
  obtain ⟨i, s, hi, hs, rfl⟩ := CSMap.Set_eq_some h
  refine ⟨rfl, fun j hj => ?_⟩
  have hij : i ≠ j := fun e => hj (e ▸ hi)
  simpa using List.getElem?_set_ne hij

/-- A successful Delete leaves the length field and the mapping of every
shard other than the hashed one untouched. -/
theorem CSMap.delete_frame {K V : Type} [DecidableEq K] {c c' : CSMap K V}
    {k : GoKey K} (h : c.Delete k = some c') :
    c'.length = c.length ∧
    ∀ j : Nat, c.hash k ≠ some j → c'.shards[j]? = c.shards[j]? := by
  obtain ⟨i, s, hi, hs, rfl⟩ := CSMap.Delete_eq_some h
  refine ⟨rfl, fun j hj => ?_⟩
  have hij : i ≠ j := fun e => hj (e ▸ hi)
  simpa using List.getElem?_set_ne hij

/-- Deleting a key absent from every shard of a well-formed map succeeds and
returns the map unchanged. -/
theorem CSMap.delete_absent {K V : Type} [DecidableEq K] (c : CSMap K V)
    (k : GoKey K) (hwf : c.shards.length = c.length) (hpos : 0 < c.length)
    (habs : ∀ s ∈ c.shards, s.m k.value = none) :
    c.Delete k = some c := by
  have hne : c.length ≠ 0 := Nat.pos_iff_ne_zero.mp hpos
  have hlt : k.firstWord % c.length < c.shards.length := by
    rw [hwf]; exact Nat.mod_lt _ hpos
  obtain ⟨s, hget⟩ : ∃ s, c.shards[k.firstWord % c.length]? = some s :=
    ⟨_, List.getElem?_eq_getElem hlt⟩
  have hmem : s ∈ c.shards := List.getElem?_mem hget
  have hsm : s.m k.value = none := habs s hmem
  have hshard : (Shard.mk (fun x => if x = k.value then none else s.m x) : Shard K V) = s := by
    have hfun : (fun x => if x = k.value then none else s.m x) = s.m := by
      funext x
      by_cases hx : x = k.value
      · simp [hx, hsm]
      · simp [hx]
    rw [hfun]
  have hlist : c.shards.set (k.firstWord % c.length)
      (Shard.mk fun x => if x = k.value then none else s.m x) = c.shards := by
    rw [hshard]
    apply List.ext_getElem?
    intro j
    by_cases hj : j = k.firstWord % c.length
    · subst hj
      rw [List.getElem?_set_self (by simpa using hlt)]
      exact hget.symm
    · exact List.getElem?_set_ne (fun e => hj e.symm)
  simp only [CSMap.Delete, CSMap.hash, if_neg hne, Option.some_bind, hget,
    Option.map_some']
  rw [hlist]

/-- A 2-shard CSMap over string keys as produced by NewCSMap(2), the setup
of the HashCollision test. -/
def cmapStr2 : CSMap String Nat :=
  { shards := List.replicate 2 { m := fun _ => none }, length := 2 }

/-- A 1-shard CSMap over Nat keys, freshly constructed. -/
def cNat1 : CSMap Nat Nat :=
  { shards := [{ m := fun _ => none }], length := 1 }

/-- cNat1 after Set of key 7 to value 5. -/
def cNat1A : CSMap Nat Nat :=
  { shards := [{ m := fun x => if x = 7 then some 5 else none }], length := 1 }

/-- cNat1A after Delete of key 7. -/
def cNat1AD : CSMap Nat Nat :=
  { shards := [{ m := fun x => if x = 7 then none
      else if x = 7 then some 5 else none }], length := 1 }

/-- cNat1 after Set of key 7 to value 1. -/
def cNat1B : CSMap Nat Nat :=
  { shards := [{ m := fun x => if x = 7 then some 1 else none }], length := 1 }

/-- cNat1B after Set of key 7 to value 2. -/
def cNat1C : CSMap Nat Nat :=
  { shards := [{ m := fun x => if x = 7 then some 2
      else if x = 7 then some 1 else none }], length := 1 }

/-- A 2-shard CSMap over Nat keys, freshly constructed. -/
def cNat2 : CSMap Nat Nat :=
  { shards := [{ m := fun _ => none }, { m := fun _ => none }], length := 2 }

/-- cNat2 after Set of key 0 (first word 0) to value 1. -/
def cNat2S : CSMap Nat Nat :=
  { shards := [{ m := fun x => if x = 0 then some 1 else none },
               { m := fun _ => none }], length := 2 }

/-- cNat2 after Delete of key 0 (first word 0). -/
def cNat2D : CSMap Nat Nat :=
  { shards := [{ m := fun x => if x = 0 then none else none },
               { m := fun _ => none }], length := 2 }

/-- C1: the claim says the shard index computed by hash is a pure function
of the key value, independent of storage location.  The code violates it:
with shard_count 2, two keys equal as values (the string "key") but whose
representations start with different machine words (backing arrays at
addresses 4096 and 4097, as two equal runtime-built strings can be) receive
shard indices 0 and 1. -/
theorem C1_hash_not_value_pure :
    NewCSMap String Nat 2 = some cmapStr2 ∧
    (GoKey.mk "key" 4096).value = (GoKey.mk "key" 4097).value ∧
    cmapStr2.hash ⟨"key", 4096⟩ = some 0 ∧
    cmapStr2.hash ⟨"key", 4097⟩ = some 1 :=
  ⟨rfl, rfl, rfl, rfl⟩

/-- C2 counterexample: Construct(0) does not fail and does produce an
instance: NewCSMap with argument 0 returns a Map with an empty shards
slice; the code has no InvalidConfiguration check. -/
theorem C2_construct_zero_counterexample :
    NewCSMap String Nat 0 = some { shards := [], length := 0 } := rfl

/-- C2 (amended): construction with a positive shard_count succeeds and
yields a Map with that many independent empty shards; construction with
shard_count 0 also succeeds (no InvalidConfiguration condition exists),
yielding a Map with zero shards; only a negative shard_count fails, by the
slice-allocation panic. -/
theorem C2_construct_amended (K V : Type) (n : Nat) (h : 0 < n) :
    (∃ c : CSMap K V, NewCSMap K V (n : Int) = some c ∧ c.length = n ∧
      c.shards.length = n ∧ ∀ s ∈ c.shards, ∀ x, s.m x = none) ∧
    (∃ c0 : CSMap K V, NewCSMap K V 0 = some c0 ∧ c0.shards = []) ∧
    (∀ m : Int, m < 0 → NewCSMap K V m = none) := by
  have hnn : ¬ ((n : Int) < 0) := Int.not_lt.mpr (Int.natCast_nonneg n)
  refine ⟨⟨{ shards := List.replicate n { m := fun _ => none }, length := n },
      ?_, rfl, by simp, ?_⟩,
⟨{ shards := [], length := 0 }, rfl, rfl⟩, fun m hm => by simp [NewCSMap, hm]⟩
  · simp [NewCSMap, hnn]
  · intro s hs x
    rw [List.eq_of_mem_replicate hs]

/-- C2 witness: the amended construction theorem at shard_count 3. -/
theorem C2_construct_amended_witness :
    (∃ c : CSMap String Nat, NewCSMap String Nat ((3 : Nat) : Int) = some c ∧
      c.length = 3 ∧ c.shards.length = 3 ∧ ∀ s ∈ c.shards, ∀ x, s.m x = none) ∧
    (∃ c0 : CSMap String Nat, NewCSMap String Nat 0 = some c0 ∧ c0.shards = []) ∧
    (∀ m : Int, m < 0 → NewCSMap String Nat m = none) :=
  C2_construct_amended String Nat 3 (by decide)

/-- C3: immediately after a completed Set(k, v), Get(k) returns (v, true). -/
theorem C3_set_then_get {K V : Type} [DecidableEq K] [Inhabited V]
    (c c' : CSMap K V) (k : GoKey K) (v : V) (h : c.Set k v = some c') :
    c'.Get k = some (v, true) :=
  CSMap.get_after_set c c' k v h

/-- C3 witness: on a fresh 1-shard map, Set key 7 to 5, then Get returns
(5, true). -/
theorem C3_set_then_get_witness : cNat1A.Get ⟨7, 7⟩ = some (5, true) :=
  C3_set_then_get cNat1 cNat1A ⟨7, 7⟩ 5 rfl

/-- C4: immediately after a completed Delete(k), Get(k) reports the key
absent, whether or not it was present before. -/
theorem C4_delete_then_get {K V : Type} [DecidableEq K] [Inhabited V]
    (c c' : CSMap K V) (k : GoKey K) (h : c.Delete k = some c') :
    ∃ z, c'.Get k = some (z, false) :=
  ⟨default, CSMap.get_after_delete c c' k h⟩

/-- C4 witness: Delete key 7 from a map holding it, then Get reports it
absent. -/
theorem C4_delete_then_get_witness : ∃ z, cNat1AD.Get ⟨7, 7⟩ = some (z, false) :=
  C4_delete_then_get cNat1A cNat1AD ⟨7, 7⟩ rfl

/-- C5: last write wins: Set(k, v1) then Set(k, v2), both completed, leave a
state where Get(k) returns (v2, true). -/
theorem C5_last_write_wins {K V : Type} [DecidableEq K] [Inhabited V]
    (c c1 c2 : CSMap K V) (k : GoKey K) (v1 v2 : V)
    (h1 : c.Set k v1 = some c1) (h2 : c1.Set k v2 = some c2) :
    c2.Get k = some (v2, true) :=
  CSMap.get_after_set c1 c2 k v2 h2

/-- C5 witness: Set key 7 to 1 then to 2 on a fresh 1-shard map; Get
returns (2, true). -/
theorem C5_last_write_wins_witness : cNat1C.Get ⟨7, 7⟩ = some (2, true) :=
  C5_last_write_wins cNat1 cNat1B cNat1C ⟨7, 7⟩ 1 2 rfl rfl

/-- C6: the claim says a key exists in at most one shard mapping at any
time.  The code violates it: from the freshly constructed 2-shard map,
two completed Sets with keys equal in value (the string "key", stored at
first words 4096 and 4097) leave that one key value present in both shard
mappings at once. -/
theorem C6_key_in_two_shards :
    NewCSMap String Nat 2 = some cmapStr2 ∧
    ∃ c1 c2 : CSMap String Nat,
      cmapStr2.Set ⟨"key", 4096⟩ 1 = some c1 ∧
      c1.Set ⟨"key", 4097⟩ 2 = some c2 ∧
      (c2.shards.map fun s => (s.m "key").isSome) = [true, true] := by
  exact ⟨rfl, _, _, rfl, rfl, rfl⟩

/-- C7: Set and Delete act only on the shard selected by the one hash
computation; the shard count is unchanged and every slot other than the
hashed index still holds the same shard mapping. -/
theorem C7_single_shard_frame {K V : Type} [DecidableEq K] (c c1 c2 : CSMap K V)
    (k : GoKey K) (v : V) (hs : c.Set k v = some c1) (hd : c.Delete k = some c2) :
    c1.length = c.length ∧ c2.length = c.length ∧
    ∀ j : Nat, c.hash k ≠ some j →
      c1.shards[j]? = c.shards[j]? ∧ c2.shards[j]? = c.shards[j]? :=
  ⟨(CSMap.set_frame hs).1, (CSMap.delete_frame hd).1,
    fun j hj => ⟨(CSMap.set_frame hs).2 j hj, (CSMap.delete_frame hd).2 j hj⟩⟩

/-- C7 witness: on a 2-shard map, Set and Delete of a key hashing to shard 0
leave slot 1 untouched. -/
theorem C7_single_shard_frame_witness :
    cNat2S.shards[1]? = cNat2.shards[1]? ∧ cNat2D.shards[1]? = cNat2.shards[1]? :=
  (C7_single_shard_frame cNat2 cNat2S cNat2D ⟨0, 0⟩ 1 rfl rfl).2.2 1 (by decide)

/-- C8: deleting a key absent from every shard of a well-formed map raises
no error and returns the whole map state unchanged. -/
theorem C8_delete_absent_noop {K V : Type} [DecidableEq K] (c : CSMap K V)
    (k : GoKey K) (hwf : c.shards.length = c.length) (hpos : 0 < c.length)
    (habs : ∀ s ∈ c.shards, s.m k.value = none) :
    c.Delete k = some c :=
  CSMap.delete_absent c k hwf hpos habs

/-- C8 witness: deleting key 3 from the fresh (empty) 1-shard map returns
the map unchanged. -/
theorem C8_delete_absent_noop_witness : cNat1.Delete ⟨3, 3⟩ = some cNat1 :=
  C8_delete_absent_noop cNat1 ⟨3, 3⟩ rfl (by decide)
    (by intro s hs; simp only [cNat1, List.mem_singleton] at hs; rw [hs])

/-- C9: Get is read-only: running the Get operation returns the state
unchanged together with the looked-up pair. -/
theorem C9_get_readonly {K V : Type} [DecidableEq K] [Inhabited V]
    (c c' : CSMap K V) (k : GoKey K) (r : Option (V × Bool))
    (h : c.run (Op.get k) = some (c', r)) :
    c' = c ∧ ∃ p, r = some p ∧ c.Get k = some p := by
  simp only [CSMap.run, Option.map_eq_some'] at h
  obtain ⟨p, hp, heq⟩ := h
  injection heq with h1 h2
  exact ⟨h1.symm, p, h2.symm, hp⟩

/-- C9 witness: running Get for key 7 on a map holding 7 maps to 5 leaves
the state unchanged and returns (5, true). -/
theorem C9_get_readonly_witness :
    cNat1A = cNat1A ∧ ∃ p, (some ((5 : Nat), true) : Option (Nat × Bool)) = some p ∧
      cNat1A.Get ⟨7, 7⟩ = some p :=
  C9_get_readonly cNat1A cNat1A ⟨7, 7⟩ (some (5, true)) rfl

/-- C10: for a map built by NewCSMap with positive shard count n, hash
yields an index below n and getShard lands in bounds; on the zero-shard
map built by NewCSMap(0), Set, Get and Delete all panic on the modulo by
zero and none completes. -/
theorem C10_shard_index_bounds {K V : Type} [DecidableEq K] [Inhabited V]
    (n : Nat) (hp : 0 < n) (c c0 : CSMap K V)
    (hc : NewCSMap K V (n : Int) = some c) (hc0 : NewCSMap K V 0 = some c0)
    (k : GoKey K) (v : V) :
    (∃ i, c.hash k = some i ∧ i < n ∧ (c.getShard k).isSome) ∧
    c0.Set k v = none ∧ c0.Get k = none ∧ c0.Delete k = none := by
  have hnn : ¬ ((n : Int) < 0) := Int.not_lt.mpr (Int.natCast_nonneg n)
  have hz : ¬ ((0 : Int) < 0) := by decide
  simp only [NewCSMap, if_neg hnn, Int.toNat_natCast, Option.some.injEq] at hc
  simp only [NewCSMap, if_neg hz, Option.some.injEq] at hc0
  subst hc
  subst hc0
  have hne : n ≠ 0 := Nat.pos_iff_ne_zero.mp hp
  have hmod : k.firstWord % n < n := Nat.mod_lt _ hp
  refine ⟨⟨k.firstWord % n, ?_, hmod, ?_⟩, rfl, rfl, rfl⟩
  · simp [CSMap.hash, hne]
  · simp [CSMap.getShard, CSMap.hash, hne, List.getElem?_replicate_of_lt hmod]

/-- C10 witness: the bounds theorem at n = 2 over Nat keys and values. -/
theorem C10_shard_index_bounds_witness :
    (∃ i, ({ shards := List.replicate 2 { m := fun _ => none }, length := 2 } :
        CSMap Nat Nat).hash ⟨5, 5⟩ = some i ∧ i < 2 ∧
      (({ shards := List.replicate 2 { m := fun _ => none }, length := 2 } :
        CSMap Nat Nat).getShard ⟨5, 5⟩).isSome) ∧
    ({ shards := [], length := 0 } : CSMap Nat Nat).Set ⟨5, 5⟩ 9 = none ∧
    ({ shards := [], length := 0 } : CSMap Nat Nat).Get ⟨5, 5⟩ = none ∧
    ({ shards := [], length := 0 } : CSMap Nat Nat).Delete ⟨5, 5⟩ = none :=
  C10_shard_index_bounds 2 (by decide) _ _ rfl rfl ⟨5, 5⟩ 9
